import Mathlib

/-!
A verification development for the interactive library program in
`src/main.cpp` (classes-and-objects).

The program is embedded shallowly:

* Console input is modelled as two explicit streams: a `List String` of
  lines (consumed by `getline`-based reads) and a `List (Option Int)` of
  integer-read attempts (consumed by `cin >> choice`; `none` is a read
  attempt that fails to parse an integer).  Console output is modelled as
  a `List String` of emitted lines; `clearScreen` produces no modelled
  output.  An exhausted input stream is modelled by returning `none`
  / leaving the state unchanged (the C++ program would block forever
  waiting for more input there).
* The regexes `^[a-zA-Z0-9 ]+$` and `^[0-9]{4}$` used with full-string
  `regex_match` become the Boolean predicates `matchesAlnumSpace` and
  `matchesYear`.
* A callback has C++ type `function<void(vector<Book>)>`: it receives the
  book vector BY VALUE and returns nothing, so any change it makes to its
  parameter copy is discarded; mutation of the store happens only through
  the separately captured `library` object, and the captured object is
  only ever used to touch the book list (`addBook` / `findBook`), never
  the action registry.  Accordingly `ActionFn` maps
  (snapshot parameter, captured store books, input lines) to
  (final parameter copy, new store books, remaining lines, output),
  and the dispatcher `dispatchWith` discards the first component exactly
  as C++ pass-by-value discards mutations of the copy.
* The `cin.get()` pause after the search/display tables consumes no
  modelled input, and `cin.ignore()` bookkeeping of the raw stream is
  absorbed into the token model.
* The unbounded menu loop `Library::run` becomes `runLoop` with an
  explicit fuel parameter; it additionally returns the list of indices of
  registered actions that were invoked, and the emitted output.
-/

namespace LibApp

/-- A book record: three strings, set at construction (`Book`, main.cpp
lines 44-76). -/
structure Book where
  title : String
  author : String
  year : String
deriving DecidableEq, Repr

/-- The regex `^[a-zA-Z0-9 ]+$` under full-string `regex_match`: one or
more ASCII letters, digits or spaces. -/
def matchesAlnumSpace (s : String) : Bool :=
  !s.data.isEmpty && s.data.all (fun c => c.isAlpha || c.isDigit || c == ' ')

/-- The regex `^[0-9]{4}$` under full-string `regex_match`: exactly four
ASCII digits (year input of `Book::getBookFromInput`, main.cpp line 60). -/
def matchesYear (s : String) : Bool :=
  s.data.length == 4 && s.data.all (fun c => c.isDigit)

/-- `getValidatedString` (main.cpp lines 26-39): print the prompt, read a
line; if it matches, return it; otherwise print the error and recurse.
Returns the accepted line, the remaining input lines, and the output. -/
def getValidatedString (prompt : String) (p : String → Bool) :
    List String → Option (String × List String × List String)
  | [] => none
  | s :: rest =>
    if p s then
      some (s, rest, [prompt])
    else
      (getValidatedString prompt p rest).map
        (fun r => (r.1, r.2.1, prompt :: "Invalid input. Please try again." :: r.2.2))

/-- `Book::getBookFromInput` (main.cpp lines 56-63): read a validated
title, author and 4-digit year, in that order, and build the `Book`. -/
def getBookFromInput (lines : List String) :
    Option (Book × List String × List String) :=
  match getValidatedString "Enter title: " matchesAlnumSpace lines with
  | none => none
  | some (t, l1, o1) =>
    match getValidatedString "Enter author: " matchesAlnumSpace l1 with
    | none => none
    | some (a, l2, o2) =>
      match getValidatedString "Enter year: " matchesYear l2 with
      | none => none
      | some (y, l3, o3) =>
        some (⟨t, a, y⟩, l3, "Enter book details: " :: "" :: (o1 ++ o2 ++ o3))

/-- The type of a callback `function<void(vector<Book>)>` together with its
captures.  Arguments: the by-value `vector<Book>` parameter (a snapshot),
the captured store's book list, and the remaining input lines.  Results:
the callback's final parameter copy (discarded by the caller, since the
C++ callback returns `void` and the parameter was a copy), the store's
book list after the call, the remaining input lines, and the output. -/
abbrev ActionFn :=
  List Book → List Book → List String →
    List Book × List Book × List String × List String

/-- `LibraryAction` (main.cpp lines 82-102): a menu label plus the
callback to run when it is selected. -/
structure LibraryAction where
  title : String
  action : ActionFn

/-- `Library` (main.cpp lines 111-228): the book list and the action
registry, both initially empty and growing only by `push_back`. -/
structure Library where
  books : List Book
  actions : List LibraryAction

/-- The `for (auto &book : books)` loop of `Library::findBook`
(main.cpp lines 212-220): return the first book whose title equals the
argument, else a null result. -/
def findBookGo (title : String) : List Book → Option Book
  | [] => none
  | b :: rest => if b.title == title then some b else findBookGo title rest

/-- `Library::findBook` (main.cpp lines 212-220). -/
def Library.findBook (lib : Library) (title : String) : Option Book :=
  findBookGo title lib.books

/-- `Library::addBook` (main.cpp lines 225-227): `books.push_back(book)`. -/
def Library.addBook (lib : Library) (b : Book) : Library :=
  { lib with books := lib.books ++ [b] }

/-- `Library::addAction` (main.cpp lines 201-204): construct the
`LibraryAction` and `actions.push_back` it. -/
def Library.addAction (lib : Library) (name : String) (f : ActionFn) : Library :=
  { lib with actions := lib.actions ++ [⟨name, f⟩] }

/-- The numbered action lines of the menu: the
`for (size_t i = 0; i < maxIndex; i++)` loop of `displayMenu`
(main.cpp lines 147-149), printing `i + 1 << ". " << actions[i].getTitle()`. -/
def menuItems (i : Nat) : List LibraryAction → List String
  | [] => []
  | a :: rest => (toString (i + 1) ++ ". " ++ a.title) :: menuItems (i + 1) rest

/-- `displayMenu` (main.cpp lines 141-153): banner, one numbered line per
registered action, then the synthetic `maxIndex + 1 << ". " << "Exit"`
line, which is computed at render time and not stored in the registry. -/
def displayMenu (actions : List LibraryAction) : List String :=
  "Welcome to the library!" :: "" :: "Please choose an action:" ::
    (menuItems 0 actions ++ [toString (actions.length + 1) ++ ". Exit", ""])

/-- One rejected attempt of the choice-validation loop (main.cpp lines
163-179): the prompt was printed, the menu was re-rendered and the error
printed, and the loop goes on with the remaining attempts. -/
def rejectStep (menu : List String) :
    Option (Int × List (Option Int) × List String) →
      Option (Int × List (Option Int) × List String)
  | none => none
  | some (c, rest, out) =>
      some (c, rest, "Enter your choice: " :: (menu ++ "Invalid input. Please try again." :: out))

/-- The inner `while (true)` choice-validation loop of `Library::run`
(main.cpp lines 160-183): prompt, attempt `cin >> choice`; a failed parse
or a value outside `[1, n + 1]` re-renders the menu with an error and
retries; an in-range value is returned.  `n` is `actions.size()`. -/
def readChoice (n : Nat) (menu : List String) :
    List (Option Int) → Option (Int × List (Option Int) × List String)
  | [] => none
  | t :: rest =>
    match t with
    | none => rejectStep menu (readChoice n menu rest)
    | some c =>
      if c < 1 ∨ (n : Int) + 1 < c then
        rejectStep menu (readChoice n menu rest)
      else
        some (c, rest, ["Enter your choice: "])

/-- The call `actions[choice - 1].getAction()(books)` (main.cpp line 194):
the book list is passed by value as the snapshot and also reachable
through the capture; the callback's final parameter copy (first result
component) is discarded. -/
def dispatchWith (a : LibraryAction) (store : List Book) (lines : List String) :
    List Book × List String × List String :=
  (a.action store store lines).2

/-- Wraps a callback with an extra modification of its by-value parameter
copy: the wrapped callback behaves identically except for what it leaves
in the (discarded) copy. -/
def withLocalMut (m : List Book → List Book) (f : ActionFn) : ActionFn :=
  fun snapshot store lines =>
    match f snapshot store lines with
    | (loc, store2, lines2, out) => (m loc, store2, lines2, out)

/-- `setw(w)` with left alignment: pad with spaces up to width `w`. -/
def padRight (s : String) (w : Nat) : String :=
  s ++ String.mk (List.replicate (w - s.data.length) ' ')

/-- Top border of the three-column book table. -/
def tableTop : String :=
  "┌─────────────────────┬─────────────────────┬───────────┐"

/-- Header row of the three-column book table. -/
def tableHeader : String :=
  "│ Title               │ Author              │ Year      │"

/-- Separator row of the three-column book table. -/
def tableSep : String :=
  "├─────────────────────┼─────────────────────┼───────────┤"

/-- Bottom border of the three-column book table. -/
def tableBottom : String :=
  "└─────────────────────┴─────────────────────┴───────────┘"

/-- One table row: title, author and year left-aligned in widths
20/20/10 (main.cpp lines 264-265 and 285-286). -/
def bookRow (b : Book) : String :=
  "│ " ++ padRight b.title 20 ++ "│ " ++ padRight b.author 20 ++ "│ " ++
    padRight b.year 10 ++ "│"

/-- The full three-column table for a list of books. -/
def bookTable (l : List Book) : List String :=
  tableTop :: tableHeader :: tableSep :: (l.map bookRow ++ [tableBottom])

/-- The "Add a book" callback registered in `main` (main.cpp lines
242-245): ignores its by-value parameter, reads a book from input and
appends it to the captured store via `addBook`. -/
def addBookAction : ActionFn := fun snapshot store lines =>
  match getBookFromInput lines with
  | none => (snapshot, store, [], [])
  | some (b, lines2, out) => (snapshot, store ++ [b], lines2, out)

/-- The "Search book" callback registered in `main` (main.cpp lines
247-273): ignores its by-value parameter, reads a title, queries the
captured store with `findBook`, and prints the found row or a
"Book not found." message. -/
def searchAction : ActionFn := fun snapshot store lines =>
  match getValidatedString "Enter book title: " matchesAlnumSpace lines with
  | none => (snapshot, store, [], [])
  | some (t, lines2, out) =>
    match findBookGo t store with
    | some b =>
        (snapshot, store, lines2,
          out ++ ["Book found.", ""] ++ bookTable [b] ++ ["Press enter to continue..."])
    | none =>
        (snapshot, store, lines2,
          out ++ ["Book not found.", "Press enter to continue..."])

/-- The "Display books" callback registered in `main` (main.cpp lines
275-295): uses only its by-value parameter; prints the
"No books to display" box when it is empty, else the full table. -/
def displayBooksAction : ActionFn := fun snapshot store lines =>
  if snapshot.isEmpty then
    (snapshot, store, lines,
      ["┌───────────────────────────────────────────────────────┐",
       "│                  No books to display                  │",
       "└───────────────────────────────────────────────────────┘",
       "Press enter to continue..."])
  else
    (snapshot, store, lines, bookTable snapshot ++ ["Press enter to continue..."])

/-- The action registry built by the three `addAction` calls in `main`
(main.cpp lines 242-295). -/
def mainActions : List LibraryAction :=
  [⟨"Add a book", addBookAction⟩, ⟨"Search book", searchAction⟩,
   ⟨"Display books", displayBooksAction⟩]

/-- The library as configured by `main` before `run()` is called:
no books, the three registered actions. -/
def mainLibrary : Library :=
  ⟨[], mainActions⟩

/-- The outer `while (true)` of `Library::run` (main.cpp lines 155-195),
with explicit fuel.  Each iteration renders the menu, reads a validated
choice, and either runs the exit callback (farewell message, stop) when
the choice is `actions.size() + 1`, or dispatches the registered action
at `choice - 1` and repeats.  Returns the final library, the indices of
registered actions invoked, and the output. -/
def runLoop : Nat → Library → List (Option Int) → List String →
    Library × List Nat × List String
  | 0, lib, _, _ => (lib, [], [])
  | fuel + 1, lib, toks, lines =>
    match readChoice lib.actions.length (displayMenu lib.actions) toks with
    | none => (lib, [], displayMenu lib.actions)
    | some (c, toks2, cOut) =>
      if c = (lib.actions.length : Int) + 1 then
        (lib, [], displayMenu lib.actions ++ cOut ++ ["Thank you for using the library!"])
      else
        match lib.actions.get? (c - 1).toNat with
        | none => (lib, [], displayMenu lib.actions ++ cOut)
        | some a =>
          match dispatchWith a lib.books lines with
          | (books2, lines2, aOut) =>
            match runLoop fuel { lib with books := books2 } toks2 lines2 with
            | (libF, trace, out) =>
              (libF, (c - 1).toNat :: trace,
                displayMenu lib.actions ++ cOut ++ aOut ++ out)

/-- A callback that only ever appends to the captured store's book list. -/
def BookGrowing (f : ActionFn) : Prop :=
  ∀ (snapshot store : List Book) (lines : List String),
    ∃ t, (f snapshot store lines).2.1 = store ++ t

/-! ## Theorems -/

/-- The scan of `findBook` is `List.find?` on the title predicate. -/
theorem findBookGo_eq_find? (title : String) :
    ∀ l : List Book, findBookGo title l = l.find? (fun b => b.title == title) := by
  intro l
  induction l with
  | nil => rfl
  | cons b rest ih =>
    by_cases h : b.title == title
    · simp [findBookGo, List.find?, h]
    · simp only [Bool.not_eq_true] at h
      simp [findBookGo, List.find?, h, ih]

/-- Any line `getValidatedString` returns satisfies the pattern. -/
theorem getValidatedString_sound (prompt : String) (p : String → Bool) :
    ∀ (lines : List String) (v : String) (r : List String) (out : List String),
      getValidatedString prompt p lines = some (v, r, out) → p v = true := by
  intro lines
  induction lines with
  | nil => intro v r out h; simp [getValidatedString] at h
  | cons s rest ih =>
    intro v r out h
    by_cases hp : p s
    · simp [getValidatedString, hp] at h
      obtain ⟨hv, _, _⟩ := h
      rw [← hv]; exact hp
    · simp [getValidatedString, hp] at h
      obtain ⟨a, b, c, hrec, hv, _, _⟩ := h
      rw [← hv]; exact ih a b c hrec

/-- Claim C3: for an input made of lines that all fail the pattern
followed by a matching line, `getValidatedString` terminates with exactly
that first matching line (and the rest of the stream untouched), and it
never returns a non-matching line. -/
theorem validated_reader_eventually_good (prompt : String) (p : String → Bool)
    (bads : List String) (good : String) (rest : List String)
    (hbad : ∀ b ∈ bads, p b = false) (hgood : p good = true) :
    (∃ out, getValidatedString prompt p (bads ++ good :: rest) = some (good, rest, out)) ∧
      (∀ (lines : List String) (v : String) (r : List String) (out : List String),
        getValidatedString prompt p lines = some (v, r, out) → p v = true) := by
  refine ⟨?_, getValidatedString_sound prompt p⟩
  induction bads with
  | nil =>
    exact ⟨[prompt], by simp [getValidatedString, hgood]⟩
  | cons b bs ih =>
    have hb : p b = false := hbad b (by simp)
    obtain ⟨out, hout⟩ := ih (fun x hx => hbad x (by simp [hx]))
    refine ⟨prompt :: "Invalid input. Please try again." :: out, ?_⟩
    simp only [List.cons_append, getValidatedString, hb, Bool.false_eq_true, if_false,
      List.append_eq, hout]
    rfl

/-- Claim C3 witness: two rejected years then an accepted one. -/
theorem validated_reader_eventually_good_witness :
    (∃ out, getValidatedString "Enter year: " matchesYear
        (["99", "19a9"] ++ "1999" :: []) = some ("1999", [], out)) ∧
      (∀ (lines : List String) (v : String) (r : List String) (out : List String),
        getValidatedString "Enter year: " matchesYear lines = some (v, r, out) →
          matchesYear v = true) :=
  validated_reader_eventually_good "Enter year: " matchesYear ["99", "19a9"] "1999" []
    (by decide) (by decide)

/-- Claim C6: a line that fully matches the required pattern is returned
unchanged on the first attempt, with the prompt printed once and no
re-prompt. -/
theorem validated_reader_first_attempt (prompt : String) (p : String → Bool)
    (s : String) (rest : List String) (h : p s = true) :
    getValidatedString prompt p (s :: rest) = some (s, rest, [prompt]) := by
  simp [getValidatedString, h]

/-- Claim C6 witness: an alphanumeric-and-space title is accepted on the
first attempt. -/
theorem validated_reader_first_attempt_witness :
    getValidatedString "Enter title: " matchesAlnumSpace ("Dune" :: []) =
      some ("Dune", [], ["Enter title: "]) :=
  validated_reader_first_attempt "Enter title: " matchesAlnumSpace "Dune" [] (by decide)

/-- Claim C7: the year pattern accepts exactly the strings made of four
decimal digits; "1999" is accepted on the first attempt while "99",
"19999" and "19a9" are each rejected and re-prompted; inside
`getBookFromInput` a rejected year is retried until a valid one. -/
theorem year_four_digits (s : String) (rest : List String) :
    (matchesYear s = true ↔
      s.data.length = 4 ∧ ∀ c ∈ s.data, '0' ≤ c ∧ c ≤ '9') ∧
    getValidatedString "Enter year: " matchesYear ("1999" :: rest) =
      some ("1999", rest, ["Enter year: "]) ∧
    getValidatedString "Enter year: " matchesYear ("99" :: rest) =
      (getValidatedString "Enter year: " matchesYear rest).map
        (fun r => (r.1, r.2.1, "Enter year: " :: "Invalid input. Please try again." :: r.2.2)) ∧
    getValidatedString "Enter year: " matchesYear ("19999" :: rest) =
      (getValidatedString "Enter year: " matchesYear rest).map
        (fun r => (r.1, r.2.1, "Enter year: " :: "Invalid input. Please try again." :: r.2.2)) ∧
    getValidatedString "Enter year: " matchesYear ("19a9" :: rest) =
      (getValidatedString "Enter year: " matchesYear rest).map
        (fun r => (r.1, r.2.1, "Enter year: " :: "Invalid input. Please try again." :: r.2.2)) ∧
    getBookFromInput ["Dune", "Frank Herbert", "99", "1999"] =
      some (⟨"Dune", "Frank Herbert", "1999"⟩, [],
        ["Enter book details: ", "", "Enter title: ", "Enter author: ",
         "Enter year: ", "Invalid input. Please try again.", "Enter year: "]) := by
  refine ⟨?_, ?_, ?_, ?_, ?_, ?_⟩
  · constructor
    · intro h
      simp only [matchesYear, Bool.and_eq_true, beq_iff_eq, List.all_eq_true] at h
      refine ⟨h.1, fun c hc => ?_⟩
      have := h.2 c hc
      simpa [Char.isDigit] using this
    · intro h
      simp only [matchesYear, Bool.and_eq_true, beq_iff_eq, List.all_eq_true]
      refine ⟨h.1, fun c hc => ?_⟩
      have := h.2 c hc
      simpa [Char.isDigit] using this
  · have h : matchesYear "1999" = true := by decide
    simp [getValidatedString, h]
  · have h : matchesYear "99" = false := by decide
    simp [getValidatedString, h]
  · have h : matchesYear "19999" = false := by decide
    simp [getValidatedString, h]
  · have h : matchesYear "19a9" = false := by decide
    simp [getValidatedString, h]
  · decide

/-- Claim C1: `findBook` returns `none` on an empty store and exactly when
no stored title equals the query; and it returns `some b` exactly when
`b` is the first stored book (in insertion order) whose title equals the
query.  Only the title takes part in the comparison. -/
theorem findBook_first_match (lib : Library) (t : String) :
    (lib.books = [] → lib.findBook t = none) ∧
    (lib.findBook t = none ↔ ∀ b ∈ lib.books, b.title ≠ t) ∧
    (∀ b : Book, lib.findBook t = some b ↔
      b.title = t ∧ ∃ pre post, lib.books = pre ++ b :: post ∧ ∀ x ∈ pre, x.title ≠ t) := by
  have hrw : lib.findBook t = lib.books.find? (fun b => b.title == t) := by
    rw [Library.findBook, findBookGo_eq_find?]
  refine ⟨?_, ?_, ?_⟩
  · intro h
    rw [hrw, h]
    rfl
  · rw [hrw]
    simp
  · intro b
    rw [hrw, List.find?_eq_some]
    simp

/-- Claim C10: `addBook` appends exactly its argument to the book list
and leaves the registry unchanged; `addAction` appends exactly one action
and leaves the books unchanged; `findBook` is a pure query whose result
does not depend on the action registry. -/
theorem store_frame_conditions (lib : Library) (b : Book) (nm : String) (f : ActionFn)
    (t : String) (bks : List Book) (a1 a2 : List LibraryAction) :
    (lib.addBook b).books = lib.books ++ [b] ∧
    (lib.addBook b).actions = lib.actions ∧
    (lib.addAction nm f).actions = lib.actions ++ [⟨nm, f⟩] ∧
    (lib.addAction nm f).books = lib.books ∧
    Library.findBook ⟨bks, a1⟩ t = Library.findBook ⟨bks, a2⟩ t :=
  ⟨rfl, rfl, rfl, rfl, rfl⟩

/-- Claim C9: the dispatcher passes the book list by value.  Wrapping a
callback with any extra modification of its parameter copy changes
nothing observable, and a callback that only modifies its parameter copy
(touching neither the captured store nor the input) leaves the store's
book list exactly as it was. -/
theorem snapshot_dispatch (a : LibraryAction) (m : List Book → List Book)
    (store : List Book) (lines : List String) (t : String) :
    dispatchWith ⟨a.title, withLocalMut m a.action⟩ store lines =
      dispatchWith a store lines ∧
    dispatchWith ⟨t, fun snapshot st ls => (m snapshot, st, ls, [])⟩ store lines =
      (store, lines, []) := by
  constructor
  · simp only [dispatchWith, withLocalMut]
  · rfl

/-- Decomposing a rejected attempt: the accepted choice and leftover
stream come from the remaining attempts. -/
theorem rejectStep_inv (menu : List String)
    (o : Option (Int × List (Option Int) × List String))
    (c : Int) (rest : List (Option Int)) (out : List String)
    (h : rejectStep menu o = some (c, rest, out)) :
    ∃ out2, o = some (c, rest, out2) := by
  cases o with
  | none => simp [rejectStep] at h
  | some v =>
    rcases v with ⟨c2, rest2, out2⟩
    simp only [rejectStep, Option.some.injEq, Prod.mk.injEq] at h
    exact ⟨out2, by rw [h.1, h.2.1]⟩

/-- Every choice accepted by the validation loop lies in `[1, n + 1]`. -/
theorem readChoice_in_range (n : Nat) (menu : List String) :
    ∀ (toks : List (Option Int)) (c : Int) (rest : List (Option Int)) (out : List String),
      readChoice n menu toks = some (c, rest, out) → 1 ≤ c ∧ c ≤ (n : Int) + 1 := by
  intro toks
  induction toks with
  | nil => intro c rest out h; simp [readChoice] at h
  | cons t ts ih =>
    intro c rest out h
    cases t with
    | none =>
      simp only [readChoice] at h
      obtain ⟨out2, h2⟩ := rejectStep_inv menu _ c rest out h
      exact ih c rest out2 h2
    | some k =>
      simp only [readChoice] at h
      by_cases hk : k < 1 ∨ (n : Int) + 1 < k
      · rw [if_pos hk] at h
        obtain ⟨out2, h2⟩ := rejectStep_inv menu _ c rest out h
        exact ih c rest out2 h2
      · rw [if_neg hk] at h
        simp only [Option.some.injEq, Prod.mk.injEq] at h
        have hc : k = c := h.1
        subst hc
        omega

/-- Claim C2: for a registry of `n` actions, the menu-choice read accepts
exactly the integers in `[1, n + 1]`: every choice it hands to the
dispatcher is in range; `0`, `n + 2` and a non-numeric token are each
rejected with a re-rendered menu and an error message, retrying on the
remaining input; and any in-range integer is accepted immediately. -/
theorem menu_choice_validation (n : Nat) (menu : List String) (toks : List (Option Int)) :
    (∀ (c : Int) (rest : List (Option Int)) (out : List String),
      readChoice n menu toks = some (c, rest, out) → 1 ≤ c ∧ c ≤ (n : Int) + 1) ∧
    readChoice n menu (some 0 :: toks) = rejectStep menu (readChoice n menu toks) ∧
    readChoice n menu (some ((n : Int) + 2) :: toks) =
      rejectStep menu (readChoice n menu toks) ∧
    readChoice n menu (none :: toks) = rejectStep menu (readChoice n menu toks) ∧
    (∀ c : Int, 1 ≤ c → c ≤ (n : Int) + 1 →
      readChoice n menu (some c :: toks) = some (c, toks, ["Enter your choice: "])) := by
  refine ⟨readChoice_in_range n menu toks, ?_, ?_, ?_, ?_⟩
  · simp only [readChoice]
    rw [if_pos (by omega)]
  · simp only [readChoice]
    rw [if_pos (by omega)]
  · simp only [readChoice]
  · intro c h1 h2
    simp only [readChoice]
    rw [if_neg (by omega)]

/-- The numbered menu lines count the registry. -/
theorem menuItems_length (l : List LibraryAction) :
    ∀ i, (menuItems i l).length = l.length := by
  induction l with
  | nil => intro i; rfl
  | cons a rest ih => intro i; simp [menuItems, ih]

/-- The `j`-th numbered menu line shows number `i + j + 1` and the title
of the `j`-th registered action. -/
theorem menuItems_get? (l : List LibraryAction) :
    ∀ (i j : Nat) (h : j < l.length),
      (menuItems i l).get? j =
        some (toString (i + j + 1) ++ ". " ++ (l.get ⟨j, h⟩).title) := by
  induction l with
  | nil => intro i j h; simp at h
  | cons a rest ih =>
    intro i j h
    cases j with
    | zero => simp [menuItems]
    | succ j2 =>
      have h2 : j2 < rest.length := by simpa using h
      have harith : i + 1 + j2 + 1 = i + (j2 + 1) + 1 := by omega
      simp only [menuItems, List.get?_cons_succ]
      rw [ih (i + 1) j2 h2, harith]
      rfl

/-- Claim C8: the rendered menu lists the registered actions as
"1. label1" through "N. labelN" in registry insertion order, followed by
the synthetic line "N+1. Exit", which exists for every registry (it is
appended at render time, not read from the registry); the rendered menu
has exactly N + 5 lines (three banner lines, N action lines, the Exit
line and a trailing blank). -/
theorem menu_render_order (actions : List LibraryAction) :
    (∀ (i : Nat) (h : i < actions.length),
      (displayMenu actions).get? (3 + i) =
        some (toString (i + 1) ++ ". " ++ (actions.get ⟨i, h⟩).title)) ∧
    (displayMenu actions).get? (3 + actions.length) =
      some (toString (actions.length + 1) ++ ". Exit") ∧
    (displayMenu actions).length = actions.length + 5 := by
  have hd : displayMenu actions =
      ["Welcome to the library!", "", "Please choose an action:"] ++
        (menuItems 0 actions ++ [toString (actions.length + 1) ++ ". Exit", ""]) := rfl
  refine ⟨?_, ?_, ?_⟩
  · intro i h
    rw [hd, List.get?_append_right (by simp)]
    simp only [List.length_cons, List.length_nil]
    have h3 : 3 + i - 3 = i := by omega
    rw [h3, List.get?_append (by rw [menuItems_length]; exact h)]
    have := menuItems_get? actions 0 i h
    rw [this]
    have : 0 + i + 1 = i + 1 := by omega
    rw [this]
  · rw [hd, List.get?_append_right (by simp)]
    simp only [List.length_cons, List.length_nil]
    have h3 : 3 + actions.length - 3 = actions.length := by omega
    rw [h3, List.get?_append_right (by rw [menuItems_length])]
    rw [menuItems_length]
    simp
  · rw [hd]
    simp [menuItems_length]

/-- Claim C4: when the choice-validation loop hands back the choice
`N + 1` (`N` = number of registered actions), the menu loop prints the
farewell message of the exit callback and terminates: the library is
unchanged, no registered action callback is invoked (the invocation trace
is empty), and the remaining fuel is never consumed. -/
theorem exit_choice_terminates (fuel : Nat) (lib : Library)
    (toks : List (Option Int)) (lines : List String)
    (c : Int) (toks2 : List (Option Int)) (cOut : List String)
    (hread : readChoice lib.actions.length (displayMenu lib.actions) toks =
      some (c, toks2, cOut))
    (hc : c = (lib.actions.length : Int) + 1) :
    runLoop (fuel + 1) lib toks lines =
      (lib, [], displayMenu lib.actions ++ cOut ++
        ["Thank you for using the library!"]) := by
  simp only [runLoop, hread]
  rw [if_pos hc]

/-- Claim C4 witness: with the three actions registered by `main`,
entering choice 4 exits at once with the farewell message. -/
theorem exit_choice_terminates_witness :
    runLoop 1 mainLibrary [some 4] [] =
      (mainLibrary, [], displayMenu mainLibrary.actions ++ ["Enter your choice: "] ++
        ["Thank you for using the library!"]) :=
  exit_choice_terminates 0 mainLibrary [some 4] [] 4 [] ["Enter your choice: "]
    (by decide) (by decide)

/-- The "Add a book" callback only appends to the store's book list. -/
theorem addBookAction_growing : BookGrowing addBookAction := by
  intro snapshot store lines
  unfold addBookAction
  cases h : getBookFromInput lines with
  | none => exact ⟨[], by simp⟩
  | some v =>
    rcases v with ⟨b, lines2, out⟩
    exact ⟨[b], by simp⟩

/-- The "Search book" callback leaves the store's book list unchanged. -/
theorem searchAction_growing : BookGrowing searchAction := by
  intro snapshot store lines
  refine ⟨[], ?_⟩
  unfold searchAction
  cases h : getValidatedString "Enter book title: " matchesAlnumSpace lines with
  | none => simp
  | some v =>
    rcases v with ⟨t, lines2, out⟩
    cases h2 : findBookGo t store with
    | none => simp [h2]
    | some b => simp [h2]

/-- The "Display books" callback leaves the store's book list
unchanged. -/
theorem displayBooksAction_growing : BookGrowing displayBooksAction := by
  intro snapshot store lines
  refine ⟨[], ?_⟩
  unfold displayBooksAction
  by_cases h : snapshot.isEmpty <;> simp [h]

/-- Every action registered by `main` only appends to the book list. -/
theorem mainActions_growing : ∀ a ∈ mainActions, BookGrowing a.action := by
  intro a ha
  simp only [mainActions, List.mem_cons, List.not_mem_nil, or_false] at ha
  rcases ha with h | h | h
  · rw [h]; exact addBookAction_growing
  · rw [h]; exact searchAction_growing
  · rw [h]; exact displayBooksAction_growing

/-- If every registered callback only appends to the book list, then any
run of the menu loop only appends to the book list and leaves the action
registry unchanged. -/
theorem runLoop_books_grow :
    ∀ (fuel : Nat) (lib : Library) (toks : List (Option Int)) (lines : List String),
      (∀ a ∈ lib.actions, BookGrowing a.action) →
      (∃ t, (runLoop fuel lib toks lines).1.books = lib.books ++ t) ∧
        (runLoop fuel lib toks lines).1.actions = lib.actions := by
  intro fuel
  induction fuel with
  | zero =>
    intro lib toks lines _
    exact ⟨⟨[], by simp [runLoop]⟩, rfl⟩
  | succ f ih =>
    intro lib toks lines hgrow
    cases hr : readChoice lib.actions.length (displayMenu lib.actions) toks with
    | none =>
      constructor
      · exact ⟨[], by simp [runLoop, hr]⟩
      · simp [runLoop, hr]
    | some v =>
      rcases v with ⟨c, toks2, cOut⟩
      by_cases hc : c = (lib.actions.length : Int) + 1
      · constructor
        · refine ⟨[], ?_⟩
          simp only [runLoop, hr]
          rw [if_pos hc]
          simp
        · simp only [runLoop, hr]
          rw [if_pos hc]
      · cases hg : lib.actions.get? (c - 1).toNat with
        | none =>
          constructor
          · refine ⟨[], ?_⟩
            simp only [runLoop, hr, hg]
            rw [if_neg hc]
            simp
          · simp only [runLoop, hr, hg]
            rw [if_neg hc]
        | some a =>
          have ha : a ∈ lib.actions := List.get?_mem hg
          obtain ⟨t1, ht1⟩ := hgrow a ha lib.books lib.books lines
          have hb2 : (dispatchWith a lib.books lines).1 = lib.books ++ t1 := ht1
          obtain ⟨⟨t2, ht2⟩, hact⟩ :=
            ih { lib with books := (dispatchWith a lib.books lines).1 }
              toks2 (dispatchWith a lib.books lines).2.1 hgrow
          constructor
          · refine ⟨t1 ++ t2, ?_⟩
            simp only [runLoop, hr, hg]
            rw [if_neg hc]
            dsimp only
            rw [ht2, hb2, List.append_assoc]
          · simp only [runLoop, hr, hg]
            rw [if_neg hc]
            dsimp only
            rw [hact]

/-- Claim C5: the book list only grows.  `addBook` appends its argument,
`addAction` leaves the books untouched, every callback registered by
`main` only appends to the book list, and any run of the menu loop with
`main`'s registry leaves the starting book sequence as a prefix of the
final book sequence (`findBook` is a pure query in this embedding and
cannot change the store). -/
theorem books_only_grow :
    (∀ (lib : Library) (b : Book), (lib.addBook b).books = lib.books ++ [b]) ∧
    (∀ (lib : Library) (nm : String) (f : ActionFn),
      (lib.addAction nm f).books = lib.books) ∧
    (∀ a ∈ mainActions, BookGrowing a.action) ∧
    (∀ (fuel : Nat) (bks : List Book) (toks : List (Option Int)) (lines : List String),
      ∃ t, (runLoop fuel ⟨bks, mainActions⟩ toks lines).1.books = bks ++ t) := by
  refine ⟨fun lib b => rfl, fun lib nm f => rfl, mainActions_growing, ?_⟩
  intro fuel bks toks lines
  exact (runLoop_books_grow fuel ⟨bks, mainActions⟩ toks lines mainActions_growing).1

end LibApp
